import Mathlib

/-!
Verification of the svg_animator repository (SVG → Lottie converter).

Shallow embedding of the Python sources:
  - svg_to_lottie_converter.py : SVGToLottieConverter
      (_parse_color, _parse_svg_path, _process_element_groups,
       _add_path_to_layer, _add_shape_to_layer, convert_svg_to_lottie)
  - svg_parser.py : SVGParser (minidom analysis branch:
      _analyze_with_minidom, _save_node_content, _extract_node_elements,
      analyze_structure, get_element_by_id, get_svg_size)
  - animation_builder.py : AnimationBuilder.process_svg (result record)

Conventions of the embedding:
  * Python floats are modelled as exact rationals (the claims under test do
    not depend on binary rounding).
  * Python str is modelled as Lean String / List Char; the regex character
    classes \d and \s and str.lower() are modelled over ASCII (all color
    tokens, attribute names and numeric literals in the program are ASCII).
  * Python float() literals are modelled for the forms
    [ws] [+|-] (digits | digits "." digits* | "." digits) [ws]
    (exponents, inf/nan and underscores are outside the corpus).
  * Exceptions are modelled with Option / Except: a Python statement that can
    raise inside a try block becomes an Option computation, the except branch
    becomes the none case.
  * File I/O (loading the SVG text, writing the JSON/HTML output) is elided;
    the embedding starts from the parsed XML node tree and models the pure
    assembly pipeline.
-/

namespace SvgAnimator

/-- An RGBA color, each channel an exact rational (Python float). -/
abbrev Color := Rat × Rat × Rat × Rat

/-- ASCII model of Python str.lower applied to one character. -/
def pyToLower (c : Char) : Char :=
  if 'A' ≤ c ∧ c ≤ 'Z' then Char.ofNat (c.toNat + 32) else c

/-- ASCII model of Python str.lower. -/
def pyLower (s : String) : String :=
  ⟨s.data.map pyToLower⟩

/-- Python truthiness for strings: `s or dflt`. -/
def pyOr (s dflt : String) : String :=
  if s = "" then dflt else s

/-- The whitespace class of the regex \s (ASCII part). -/
def pyIsSpace (c : Char) : Bool :=
  c = ' ' ∨ c = '\t' ∨ c = '\n' ∨ c = '\r' ∨ c = '\x0b' ∨ c = '\x0c'

/-- Value of a decimal digit character. -/
def digitVal (c : Char) : Nat := c.toNat - 48

/-- Value of a nonempty list of decimal digit characters (Python int()). -/
def digitsVal (ds : List Char) : Nat :=
  ds.foldl (fun n c => 10 * n + digitVal c) 0

/-- Value of one hexadecimal digit, as accepted by Python int(_, 16). -/
def hexDigit (c : Char) : Option Nat :=
  if '0' ≤ c ∧ c ≤ '9' then some (c.toNat - 48)
  else if 'a' ≤ c ∧ c ≤ 'f' then some (c.toNat - 87)
  else if 'A' ≤ c ∧ c ≤ 'F' then some (c.toNat - 55)
  else none

/-- Model of Python int(s, 16) on the at-most-two-character slices this
program produces: surrounding whitespace is stripped, an optional single
sign may precede the digits, and at least one hexadecimal digit must
remain — so int('-f',16) = -15 and int(' f',16) = 15.  (The 0x prefix and
underscore separators need at least three characters and therefore cannot
occur on these slices.)  none models a ValueError. -/
def pyInt16 (cs : List Char) : Option Int :=
  let cs1 := ((cs.dropWhile pyIsSpace).reverse.dropWhile pyIsSpace).reverse
  let sgn : Int :=
    match cs1 with
    | c :: _ => if c = '-' then -1 else 1
    | [] => 1
  let ds : List Char :=
    match cs1 with
    | c :: r => if c = '-' ∨ c = '+' then r else cs1
    | [] => []
  if ds = [] then none
  else if ds.all fun ch => (hexDigit ch).isSome then
    some (sgn * ds.foldl (fun n ch => 16 * n + ((hexDigit ch).getD 0 : Int)) 0)
  else none

/-- Fractional value of the digits after the decimal point. -/
def fracVal (ds : List Char) : Rat :=
  (digitsVal ds : Rat) / ((10 : Rat) ^ ds.length)

/-- Model of Python float() on the decimal forms occurring in the program:
optional surrounding whitespace, optional sign, then digits, digits "." frac
or "." frac.  Returns none where float() raises ValueError. -/
def pyFloat (cs : List Char) : Option Rat :=
  let cs := (((cs.dropWhile pyIsSpace).reverse.dropWhile pyIsSpace).reverse)
  let (sgn, cs) : Rat × List Char :=
    match cs with
    | '+' :: r => (1, r)
    | '-' :: r => (-1, r)
    | _ => (1, cs)
  let ip := cs.takeWhile Char.isDigit
  let rest := cs.drop ip.length
  match rest with
  | [] => if ip = [] then none else some (sgn * (digitsVal ip : Rat))
  | '.' :: frac =>
    if frac.all Char.isDigit ∧ (ip ≠ [] ∨ frac ≠ []) then
      some (sgn * ((digitsVal ip : Rat) + fracVal frac))
    else none
  | _ => none

/-- Python float(s) on a String. -/
def pyFloatS (s : String) : Option Rat := pyFloat s.data

/-- Python dict insertion on an insertion-ordered association list:
overwriting an existing key keeps its position, a new key is appended. -/
def dictInsert {α : Type} (d : List (String × α)) (k : String) (v : α) :
    List (String × α) :=
  match d with
  | [] => [(k, v)]
  | (k', v') :: rest =>
    if k' = k then (k', v) :: rest else (k', v') :: dictInsert rest k v

/-- Python dict lookup (first match; dictInsert keeps keys unique). -/
def dictGet {α : Type} : List (String × α) → String → Option α
  | [], _ => none
  | (k', v) :: rest, k => if k' = k then some v else dictGet rest k

/-! ### The color resolver `_parse_color` (svg_to_lottie_converter.py 297-377) -/

/-- The color_map dict of _parse_color (including its dead "none" entry,
which is shadowed by the earlier lowercase-"none" test). -/
def colorMap : List (String × Color) :=
  [("black",   (0, 0, 0, 1)),
   ("white",   (1, 1, 1, 1)),
   ("red",     (1, 0, 0, 1)),
   ("green",   (0, 1, 0, 1)),
   ("blue",    (0, 0, 1, 1)),
   ("yellow",  (1, 1, 0, 1)),
   ("cyan",    (0, 1, 1, 1)),
   ("magenta", (1, 0, 1, 1)),
   ("none",    (0, 0, 0, 0))]

/-- Model of re.match(r"rgb\(\s*(\d+)\s*,\s*(\d+)\s*,\s*(\d+)\s*\)", s):
anchored at the start of the string, trailing characters permitted.
Returns the three captured integers. -/
def rgbMatch (cs : List Char) : Option (Nat × Nat × Nat) :=
  match cs with
  | 'r' :: 'g' :: 'b' :: '(' :: rest =>
    let rest := rest.dropWhile pyIsSpace
    let d1 := rest.takeWhile Char.isDigit
    if d1 = [] then none else
    match (rest.drop d1.length).dropWhile pyIsSpace with
    | ',' :: rest =>
      let rest := rest.dropWhile pyIsSpace
      let d2 := rest.takeWhile Char.isDigit
      if d2 = [] then none else
      match (rest.drop d2.length).dropWhile pyIsSpace with
      | ',' :: rest =>
        let rest := rest.dropWhile pyIsSpace
        let d3 := rest.takeWhile Char.isDigit
        if d3 = [] then none else
        match (rest.drop d3.length).dropWhile pyIsSpace with
        | ')' :: _ => some (digitsVal d1, digitsVal d2, digitsVal d3)
        | _ => none
      | _ => none
    | _ => none
  | _ => none

/-- Model of re.match(r"rgba\(\s*(\d+)\s*,\s*(\d+)\s*,\s*(\d+)\s*,\s*([\d\.]+)\s*\)", s):
anchored at the start, trailing characters permitted.  The fourth capture is
returned as the raw character list (it is fed to float() afterwards). -/
def rgbaMatch (cs : List Char) : Option (Nat × Nat × Nat × List Char) :=
  match cs with
  | 'r' :: 'g' :: 'b' :: 'a' :: '(' :: rest =>
    let rest := rest.dropWhile pyIsSpace
    let d1 := rest.takeWhile Char.isDigit
    if d1 = [] then none else
    match (rest.drop d1.length).dropWhile pyIsSpace with
    | ',' :: rest =>
      let rest := rest.dropWhile pyIsSpace
      let d2 := rest.takeWhile Char.isDigit
      if d2 = [] then none else
      match (rest.drop d2.length).dropWhile pyIsSpace with
      | ',' :: rest =>
        let rest := rest.dropWhile pyIsSpace
        let d3 := rest.takeWhile Char.isDigit
        if d3 = [] then none else
        match (rest.drop d3.length).dropWhile pyIsSpace with
        | ',' :: rest =>
          let rest := rest.dropWhile pyIsSpace
          let d4 := rest.takeWhile (fun c => Char.isDigit c ∨ c = '.')
          if d4 = [] then none else
          match (rest.drop d4.length).dropWhile pyIsSpace with
          | ')' :: _ => some (digitsVal d1, digitsVal d2, digitsVal d3, d4)
          | _ => none
        | _ => none
      | _ => none
    | _ => none
  | _ => none

/-- The hex branch of _parse_color: color_str.lstrip('#') then the
length-3 / length-6 / length-8 cases.  The shorthand case reads
int(c+c, 16) on each character duplicated; the 6/8 cases read each
two-character slice with int(_, 16), inheriting its sign/whitespace
tolerance, each divided by 255.  Returns none where a ValueError was
raised or no length case applies (control then falls through to the
rgb()/rgba() attempts). -/
def hexBranch (s : String) : Option Color :=
  match s.data.dropWhile (· = '#') with
  | [a, b, c] => do
    let r ← pyInt16 [a, a]
    let g ← pyInt16 [b, b]
    let bl ← pyInt16 [c, c]
    pure ((r : Rat) / 255, (g : Rat) / 255, (bl : Rat) / 255, 1)
  | [a, b, c, d, e, f] => do
    let r ← pyInt16 [a, b]
    let g ← pyInt16 [c, d]
    let bl ← pyInt16 [e, f]
    pure ((r : Rat) / 255, (g : Rat) / 255, (bl : Rat) / 255, 1)
  | [a, b, c, d, e, f, g', h] => do
    let r ← pyInt16 [a, b]
    let g ← pyInt16 [c, d]
    let bl ← pyInt16 [e, f]
    let al ← pyInt16 [g', h]
    pure ((r : Rat) / 255, (g : Rat) / 255, (bl : Rat) / 255, (al : Rat) / 255)
  | _ => none

/-- Python color_str.startswith('#'). -/
def headIsHash (s : String) : Bool :=
  match s.data with
  | c :: _ => c = '#'
  | [] => false

/-- SVGToLottieConverter._parse_color (svg_to_lottie_converter.py 297-377),
translated clause by clause: empty/"none" test, color_map lookup on the
lowercased string, hex branch guarded by startswith('#') with ValueError
falling through, then the rgb() and rgba() regex attempts, else opaque
black. -/
def parseColor (s : String) : Color :=
  if s = "" ∨ pyLower s = "none" then (0, 0, 0, 0)
  else
    match dictGet colorMap (pyLower s) with
    | some c => c
    | none =>
      let hexRes := if headIsHash s then hexBranch s else none
      match hexRes with
      | some c => c
      | none =>
        match rgbMatch s.data with
        | some (r, g, b) => ((r : Rat) / 255, (g : Rat) / 255, (b : Rat) / 255, 1)
        | none =>
          match rgbaMatch s.data with
          | some (r, g, b, aStr) =>
            match pyFloat aStr with
            | some a => ((r : Rat) / 255, (g : Rat) / 255, (b : Rat) / 255, a)
            | none => (0, 0, 0, 1)
          | none => (0, 0, 0, 1)

/-- SVGToLottieConverter._parse_svg_path (svg_to_lottie_converter.py
273-295): the body is a placeholder that returns a fixed literal for every
input (the try body cannot raise, so the except branch returning [] is
dead code). -/
def parseSvgPath (_d : String) : List (List Int) :=
  [[0, 0, 0], [1, 2, 0, 0, 0, 0]]

/-! ### XML node trees and the minidom analysis branch (svg_parser.py) -/

/-- A parsed XML node as seen through xml.dom.minidom: an element with a
tag name, attributes and a child list, or a non-element node (text,
comment, ...), which process_node and the extraction helpers skip. -/
inductive XmlNode where
  | elem (tag : String) (attrs : List (String × String)) (children : List XmlNode)
  | text (s : String)
deriving Repr

/-- First-match lookup in an attribute list. -/
def attrsGet : List (String × String) → String → Option String
  | [], _ => none
  | (k, v) :: rest, name => if k = name then some v else attrsGet rest name

/-- minidom's getAttribute: the attribute's value, or the empty string when
the attribute is absent. -/
def XmlNode.getAttribute : XmlNode → String → String
  | .elem _ attrs _, name => (attrsGet attrs name).getD ""
  | .text _, _ => ""

/-- One record of element_groups['original_elements']: the attribute dicts
built by _save_node_content / _extract_node_elements (svg_parser.py
212-306), with the numeric attributes already converted by float() and the
documented per-attribute defaults applied. -/
inductive ElementData where
  | path (d : String) (fill : String)
  | circle (cx cy r : Rat) (fill : String)
  | rect (x y w h : Rat) (fill : String)
  | poly (tag : String) (points : String) (fill : String)
deriving DecidableEq, Repr

/-- The mutable state of an SVGParser instance that the analysis touches:
structure_map (never reset by analyze_structure) and the four components
of element_groups (reset at the start of every analyze_structure call). -/
structure PState where
  structureMap : List (String × (String × Option String))
  groups : List String
  paths : List String
  shapes : List String
  origElems : List (String × List ElementData)
deriving DecidableEq, Repr

/-- The state of a freshly constructed SVGParser. -/
def initPState : PState :=
  { structureMap := [], groups := [], paths := [], shapes := [], origElems := [] }

/-- float(node.getAttribute(name) or dflt): the numeric default is used for
an absent/empty attribute, otherwise the string is given to float(), which
may raise (none). -/
def attrFloat (node : XmlNode) (name : String) (dflt : Rat) : Option Rat :=
  let s := node.getAttribute name
  if s = "" then some dflt else pyFloatS s

mutual
/-- SVGParser._extract_node_elements (svg_parser.py 260-306): builds the
attribute dicts for one node; each call swallows its own exceptions
(except: pass), so a numeric failure yields the empty list, and recursive
extraction inside a nested g cannot raise. -/
def extractNodeElements : XmlNode → List ElementData
  | .text _ => []
  | .elem tag attrs children =>
    let node := XmlNode.elem tag attrs children
    if tag = "circle" then
      match attrFloat node "cx" 0, attrFloat node "cy" 0, attrFloat node "r" 5 with
      | some cx, some cy, some r =>
        [.circle cx cy r (pyOr (node.getAttribute "fill") "black")]
      | _, _, _ => []
    else if tag = "rect" then
      match attrFloat node "x" 0, attrFloat node "y" 0,
            attrFloat node "width" 10, attrFloat node "height" 10 with
      | some x, some y, some w, some h =>
        [.rect x y w h (pyOr (node.getAttribute "fill") "black")]
      | _, _, _, _ => []
    else if tag = "path" then
      [.path (pyOr (node.getAttribute "d") "M0,0")
             (pyOr (node.getAttribute "fill") "none")]
    else if tag = "polygon" ∨ tag = "polyline" then
      [.poly tag (node.getAttribute "points")
             (pyOr (node.getAttribute "fill") "none")]
    else if tag = "g" then
      extractNodesElements children
    else []

/-- The loop of the g branch of _extract_node_elements over a child list
(non-element children contribute nothing). -/
def extractNodesElements : List XmlNode → List ElementData
  | [] => []
  | n :: rest => extractNodeElements n ++ extractNodesElements rest
end

/-- SVGParser._save_node_content (svg_parser.py 212-258): the elements list
for one node.  none models the ValueError of a float() conversion escaping
to the handler (the entry is then not stored, the error only logged).  For
a g node the children are collected with _extract_node_elements, which
cannot raise. -/
def saveNodeContent : XmlNode → Option (List ElementData)
  | .text _ => some []
  | .elem tag attrs children =>
    let node := XmlNode.elem tag attrs children
    if tag = "circle" then
      match attrFloat node "cx" 0, attrFloat node "cy" 0, attrFloat node "r" 5 with
      | some cx, some cy, some r =>
        some [.circle cx cy r (pyOr (node.getAttribute "fill") "black")]
      | _, _, _ => none
    else if tag = "rect" then
      match attrFloat node "x" 0, attrFloat node "y" 0,
            attrFloat node "width" 10, attrFloat node "height" 10 with
      | some x, some y, some w, some h =>
        some [.rect x y w h (pyOr (node.getAttribute "fill") "black")]
      | _, _, _, _ => none
    else if tag = "path" then
      some [.path (pyOr (node.getAttribute "d") "M0,0")
                  (pyOr (node.getAttribute "fill") "none")]
    else if tag = "polygon" ∨ tag = "polyline" then
      some [.poly tag (node.getAttribute "points")
                  (pyOr (node.getAttribute "fill") "none")]
    else if tag = "g" then
      some (extractNodesElements children)
    else some []

mutual
/-- process_node of SVGParser._analyze_with_minidom (svg_parser.py
143-168): skip non-element nodes; take the id attribute or a synthetic
"element_<len(structure_map)>"; record the structure_map entry; store the
node content (unless its extraction raised); classify the tag into groups /
paths / shapes; recurse into the children with this node as parent. -/
def processNode (node : XmlNode) (parentId : Option String) (st : PState) :
    PState :=
  match node with
  | .text _ => st
  | .elem tag attrs children =>
    let n := XmlNode.elem tag attrs children
    let eid := pyOr (n.getAttribute "id")
      ("element_" ++ Nat.repr st.structureMap.length)
    let st := { st with
      structureMap := dictInsert st.structureMap eid (tag, parentId) }
    let st :=
      match saveNodeContent n with
      | some es =>
        if es = [] then st
        else { st with origElems := dictInsert st.origElems eid es }
      | none => st
    let st :=
      if tag = "g" then { st with groups := st.groups ++ [eid] }
      else if tag = "path" then { st with paths := st.paths ++ [eid] }
      else if tag = "circle" ∨ tag = "rect" ∨ tag = "ellipse" ∨
              tag = "polygon" ∨ tag = "polyline" then
        { st with shapes := st.shapes ++ [eid] }
      else st
    processNodes children eid st

/-- The recursion of process_node over a child list, left to right. -/
def processNodes (nodes : List XmlNode) (parentId : String) (st : PState) :
    PState :=
  match nodes with
  | [] => st
  | n :: rest => processNodes rest parentId (processNode n (some parentId) st)
end

/-- SVGParser.analyze_structure (svg_parser.py 82-101) on the minidom
branch: element_groups is reset, structure_map is NOT reset, then
process_node runs on the document element with no parent. -/
def analyzeStructure (doc : XmlNode) (prev : PState) : PState :=
  processNode doc none
    { structureMap := prev.structureMap,
      groups := [], paths := [], shapes := [], origElems := [] }

/-- SVGParser.get_element_by_id (svg_parser.py 312-316). -/
def getElementById (st : PState) (eid : String) : Option (List ElementData) :=
  dictGet st.origElems eid

/-- re.sub(r"[^0-9.]", "", s): drop every character that is not a decimal
digit or a dot. -/
def stripNonNumeric (s : String) : String :=
  ⟨s.data.filter fun c => Char.isDigit c ∨ c = '.'⟩

/-- The try body of SVGParser.get_svg_size (svg_parser.py 318-330, minidom
branch): width/height attributes with textual defaults "800"/"600",
unit characters stripped, then float(); none models an escaping
ValueError. -/
def svgSizeInner (root : XmlNode) : Option (Rat × Rat) := do
  let w := pyOr (root.getAttribute "width") "800"
  let h := pyOr (root.getAttribute "height") "600"
  let wv ← pyFloatS (stripNonNumeric w)
  let hv ← pyFloatS (stripNonNumeric h)
  pure (wv, hv)

/-- SVGParser.get_svg_size: any exception in the body is caught, logged and
replaced by the default (800.0, 600.0). -/
def getSvgSize (root : XmlNode) : Rat × Rat :=
  (svgSizeInner root).getD (800, 600)

/-! ### The animation assembler (svg_to_lottie_converter.py) -/

/-- One lottie objects.Group added to a layer, identified by the shapes it
holds: a background rectangle with its fill, a path with its fill, a
rect/ellipse with its fill, or a bare fill (the branch-less
polygon/polyline and path cases of _add_shape_to_layer). -/
inductive ShapeGroup where
  | bgRect (pos size : Rat × Rat) (color : Color)
  | pathShape (shape : List (List Int)) (fill : Color)
  | rectShape (pos size : Rat × Rat) (fill : Color)
  | ellipseShape (pos size : Rat × Rat) (fill : Color)
  | fillOnly (fill : Color)
deriving DecidableEq, Repr

/-- A lottie ShapeLayer: its name and its ordered list of shape groups. -/
structure Layer where
  name : String
  shapes : List ShapeGroup
deriving DecidableEq, Repr

/-- SVGToLottieConverter._add_path_to_layer (svg_to_lottie_converter.py
189-223): returns without adding anything when the dict has no 'd' key
(i.e. the stored record is not a path); otherwise adds one group holding
the placeholder path shape and the parsed fill.  The try body cannot raise
(both parsers are total), so the printing except branch is dead. -/
def addPathToLayer : ElementData → Option ShapeGroup
  | .path d fill => some (.pathShape (parseSvgPath d) (parseColor fill))
  | _ => none

/-- SVGToLottieConverter._add_shape_to_layer (svg_to_lottie_converter.py
225-271): a rect becomes a centered Rect, a circle an Ellipse of diameter
2r; every other record type (polygon, polyline, and a path routed here)
falls through both branches and contributes only its fill.  The try body
cannot raise on the records the parser produces. -/
def addShapeToLayer : ElementData → ShapeGroup
  | .rect x y w h fill =>
    .rectShape (x + w / 2, y + h / 2) (w, h) (parseColor fill)
  | .circle cx cy r fill =>
    .ellipseShape (cx, cy) (2 * r, 2 * r) (parseColor fill)
  | .path _ fill => .fillOnly (parseColor fill)
  | .poly _ _ fill => .fillOnly (parseColor fill)

/-- The "Main Elements" layer built by _process_element_groups
(svg_to_lottie_converter.py 155-172): first every id of
element_groups['paths'] whose stored record list is non-empty, through
_add_path_to_layer applied to its first record; then likewise every id of
element_groups['shapes'] through _add_shape_to_layer. -/
def mainLayer (st : PState) : Layer :=
  { name := "Main Elements",
    shapes :=
      (st.paths.filterMap fun pid =>
        match getElementById st pid with
        | some (e :: _) => addPathToLayer e
        | _ => none)
      ++
      (st.shapes.filterMap fun sid =>
        match getElementById st sid with
        | some (e :: _) => some (addShapeToLayer e)
        | _ => none) }

/-- The per-group layers of _process_element_groups
(svg_to_lottie_converter.py 174-187): enumerate element_groups['groups'];
a group id with no stored (or an empty) record list produces no layer but
still consumes its ordinal; otherwise the layer "Group <i+1>" holds every
stored record, paths through _add_path_to_layer and rect / circle /
polygon / polyline records through _add_shape_to_layer. -/
def groupLayers (st : PState) : List Layer :=
  st.groups.enum.filterMap fun (i, gid) =>
    match getElementById st gid with
    | some [] => none
    | none => none
    | some es =>
      some { name := "Group " ++ Nat.repr (i + 1),
             shapes := es.filterMap fun e =>
               match e with
               | .path .. => addPathToLayer e
               | .rect .. => some (addShapeToLayer e)
               | .circle .. => some (addShapeToLayer e)
               | .poly .. => some (addShapeToLayer e) }

/-- The background block of convert_svg_to_lottie (svg_to_lottie_converter.py
113-132): a falsy (empty) background_color leaves the Background layer
empty; otherwise the string is lstrip('#')-ed and the slices [0:2], [2:4],
[4:6] are each read with int(_, 16) — Python slicing truncates, so a
five-character value ends in a one-character slice, while an empty slice
(fewer than five characters) or a non-parsing slice raises an uncaught
ValueError, modelled as Except.error. -/
def bgShapes (bg : String) (w h : Rat) : Except String (List ShapeGroup) :=
  if bg = "" then .ok []
  else
    let color := bg.data.dropWhile (· = '#')
    match pyInt16 (color.take 2), pyInt16 ((color.drop 2).take 2),
          pyInt16 ((color.drop 4).take 2) with
    | some r, some g, some b =>
      .ok [.bgRect (w / 2, h / 2) (w, h)
            ((r : Rat) / 255, (g : Rat) / 255, (b : Rat) / 255, 1)]
    | _, _, _ => .error "ValueError: invalid literal for int() with base 16"

/-- The layer assembly of convert_svg_to_lottie (svg_to_lottie_converter.py
112-136): the Background layer is always appended first (empty when the
background color is falsy), then the main layer, then the group layers.
A ValueError from the background hex parsing propagates (there is no
enclosing handler before the export step). -/
def buildAnimation (bg : String) (w h : Rat) (st : PState) :
    Except String (List Layer) :=
  match bgShapes bg w h with
  | .error e => .error e
  | .ok shapes =>
    .ok (({ name := "Background", shapes := shapes } : Layer)
          :: mainLayer st :: groupLayers st)

/-! ### AnimationBuilder.process_svg (animation_builder.py 37-120) -/

/-- The observable outcome of process_svg for one document: the success
flag and messages list of the returned result dict, and the assembled
layers.  The embedding starts from a parsed document (the file-existence
and XML-load failure paths are upstream of every claim under test) and
models the export and preview writes as succeeding. -/
structure BuildResult where
  success : Bool
  messages : List String
  layers : Option (List Layer)
deriving DecidableEq, Repr

/-- AnimationBuilder.process_svg on a loaded document: analyze the
structure, convert, and on success append the single preview message.  An
exception escaping convert_svg_to_lottie (the background ValueError) is
not caught by process_svg and crashes the call, modelled as Except.error.
No per-primitive diagnostic is ever appended to the messages list. -/
def processSvg (bg : String) (w h : Rat) (doc : XmlNode) (htmlPath : String) :
    Except String BuildResult :=
  let st := analyzeStructure doc initPState
  match buildAnimation bg w h st with
  | .ok l =>
    .ok { success := true,
          messages := ["创建了Lottie预览: " ++ htmlPath],
          layers := some l }
  | .error e => .error e

/-! ### Spec-side color resolver (spec.md §4.3, amended)

A second definition of the color resolution written from the
specification's wording, for comparison with parseColor: first-match-wins
clauses (a) empty / case-insensitive "none", (b) fixed eight-entry named
table, (c) leading "#" with hex length 3 (nibbles duplicated), 6 or 8 and
channels divided by 255, malformed hex falling to the default, (d) the
rgb()/rgba() regex grammar, malformed numerics falling to the default,
(e) opaque black.  Three amendments forced by counterexamples: all
leading '#' characters are stripped before the length test; the
rgb()/rgba() grammar is recognized as a prefix of the token (trailing
characters are ignored); and the 6/8-length forms read each
two-character slice with Python int(_, 16), which tolerates a sign or
surrounding whitespace inside the slice (so "#-f-f-f" yields signed
channels instead of the default).  The shorthand form duplicates each
character, and a duplicated sign or space never parses, so only true hex
digits succeed there. -/

/-- c is a hexadecimal digit. -/
def isHexChar (c : Char) : Bool := (hexDigit c).isSome

/-- Total value of a hexadecimal digit (0 for a non-digit). -/
def hexVal (c : Char) : Nat := (hexDigit c).getD 0

/-- Spec clause (b): the fixed named-color table. -/
def colorTable : List (String × Color) :=
  [("black",   (0, 0, 0, 1)),
   ("white",   (1, 1, 1, 1)),
   ("red",     (1, 0, 0, 1)),
   ("green",   (0, 1, 0, 1)),
   ("blue",    (0, 0, 1, 1)),
   ("yellow",  (1, 1, 0, 1)),
   ("cyan",    (0, 1, 1, 1)),
   ("magenta", (1, 0, 1, 1))]

/-- Spec clause (c) on the stripped hex characters: length 3 duplicates
each nibble, so the channel is 17*v for a true hex digit v and malformed
otherwise; lengths 6 (RGB) and 8 (RGBA) read each two-character slice
with int(_, 16) (amendment: inheriting its sign/whitespace tolerance),
each channel divided by 255; anything else (wrong length, or a slice
int(_, 16) rejects) is malformed. -/
def specHexColor (cs : List Char) : Option Color :=
  match cs with
  | [a, b, c] =>
    if isHexChar a ∧ isHexChar b ∧ isHexChar c then
      some ((17 * hexVal a : Rat) / 255, (17 * hexVal b : Rat) / 255,
            (17 * hexVal c : Rat) / 255, 1)
    else none
  | [a, b, c, d, e, f] =>
    match pyInt16 [a, b], pyInt16 [c, d], pyInt16 [e, f] with
    | some r, some g, some bl =>
      some ((r : Rat) / 255, (g : Rat) / 255, (bl : Rat) / 255, 1)
    | _, _, _ => none
  | [a, b, c, d, e, f, g', h] =>
    match pyInt16 [a, b], pyInt16 [c, d], pyInt16 [e, f], pyInt16 [g', h] with
    | some r, some g, some bl, some al =>
      some ((r : Rat) / 255, (g : Rat) / 255, (bl : Rat) / 255, (al : Rat) / 255)
    | _, _, _, _ => none
  | _ => none

/-- The color resolution as the specification words it (with the three
amendments recorded above). -/
def parseColorSpec (s : String) : Color :=
  if s = "" ∨ pyLower s = "none" then (0, 0, 0, 0)
  else
    match dictGet colorTable (pyLower s) with
    | some c => c
    | none =>
      if headIsHash s then
        match specHexColor (s.data.dropWhile (· = '#')) with
        | some c => c
        | none => (0, 0, 0, 1)
      else
        match rgbMatch s.data with
        | some (r, g, b) =>
          ((r : Rat) / 255, (g : Rat) / 255, (b : Rat) / 255, 1)
        | none =>
          match rgbaMatch s.data with
          | some (r, g, b, aStr) =>
            match pyFloat aStr with
            | some a => ((r : Rat) / 255, (g : Rat) / 255, (b : Rat) / 255, a)
            | none => (0, 0, 0, 1)
          | none => (0, 0, 0, 1)

/-! ### Document families for the structural claims

C9 quantifies over documents whose element children are top-level path
elements (arbitrary attribute lists); C3 over documents mixing top-level
paths and one level of groups of paths. -/

/-- An SVG document whose children are exactly the path elements with the
given attribute lists. -/
def pathDoc (attrsList : List (List (String × String))) : XmlNode :=
  .elem "svg" [] (attrsList.map fun a => .elem "path" a [])

/-- A path element of the C3 family: its id, d and fill attributes. -/
structure PathItem where
  pid : String
  d : String
  fill : String
deriving DecidableEq, Repr

/-- A top-level child of the C3 family: a bare path, or a group of paths. -/
inductive Item where
  | single (p : PathItem)
  | group (gid : String) (kids : List PathItem)
deriving DecidableEq, Repr

/-- The XML element of a PathItem. -/
def PathItem.node (p : PathItem) : XmlNode :=
  .elem "path" [("id", p.pid), ("d", p.d), ("fill", p.fill)] []

/-- The XML element of an Item. -/
def Item.node : Item → XmlNode
  | .single p => p.node
  | .group gid kids => .elem "g" [("id", gid)] (kids.map PathItem.node)

/-- The SVG document of the C3 family. -/
def itemsDoc (items : List Item) : XmlNode :=
  .elem "svg" [] (items.map Item.node)

/-- All element ids an Item carries. -/
def Item.ids : Item → List String
  | .single p => [p.pid]
  | .group gid kids => gid :: kids.map PathItem.pid

/-- All element ids of a document of the family, in document order. -/
def itemsIds (items : List Item) : List String :=
  items.flatMap Item.ids

/-- The record the parser stores for a PathItem (d defaults to "M0,0" and
fill to "none" when the attribute is empty). -/
def PathItem.record (p : PathItem) : ElementData :=
  .path (pyOr p.d "M0,0") (pyOr p.fill "none")

/-- The shape group the assembler emits for a PathItem. -/
def PathItem.shape (p : PathItem) : ShapeGroup :=
  .pathShape (parseSvgPath (pyOr p.d "M0,0")) (parseColor (pyOr p.fill "none"))

/-- The path ids an Item contributes to element_groups['paths']. -/
def Item.pathIds : Item → List String
  | .single p => [p.pid]
  | .group _ kids => kids.map PathItem.pid

/-- The group ids an Item contributes to element_groups['groups']. -/
def Item.groupIds : Item → List String
  | .single _ => []
  | .group gid _ => [gid]

/-- The original_elements entries an Item contributes, in insertion
order: a group with children is stored before its children; a childless
group stores nothing. -/
def Item.entries : Item → List (String × List ElementData)
  | .single p => [(p.pid, [p.record])]
  | .group gid kids =>
    (if kids = [] then [] else [(gid, kids.map PathItem.record)]) ++
      kids.map fun p => (p.pid, [p.record])

/-- The path items of an Item, in document order. -/
def Item.pathsOf : Item → List PathItem
  | .single p => [p]
  | .group _ kids => kids

/-- The shape groups of the main layer: one per path element of the
document (bare or nested), in document order. -/
def allPathShapes (items : List Item) : List ShapeGroup :=
  (items.flatMap Item.pathsOf).map PathItem.shape

/-- The kid lists of the group items, in document order. -/
def groupKidLists (items : List Item) : List (List PathItem) :=
  items.filterMap fun
    | .group _ kids => some kids
    | .single _ => none

/-- The (id, kid list) pairs of the group items, in document order. -/
def groupPairs (items : List Item) : List (String × List PathItem) :=
  items.filterMap fun
    | .group gid kids => some (gid, kids)
    | .single _ => none

/-- The expected per-group layers: the i-th group (0-based) is named
"Group i+1"; a childless group produces no layer but keeps its ordinal. -/
def expectedGroupLayers (items : List Item) : List Layer :=
  (groupKidLists items).enum.filterMap fun (i, kids) =>
    if kids = [] then none
    else some { name := "Group " ++ Nat.repr (i + 1),
                shapes := kids.map PathItem.shape }

/-! ### Concrete example documents used by the closed theorems -/

/-- A document with one top-level group holding one path and nothing else. -/
def docNested : XmlNode :=
  .elem "svg" []
    [.elem "g" [("id", "g1")]
      [.elem "path" [("id", "p1"), ("d", "M0,0 L1,1"), ("fill", "red")] []]]

/-- A minimal document: one path without an id under the root. -/
def docPlain : XmlNode :=
  .elem "svg" [] [.elem "path" [] []]

/-- A document with a circle whose cx attribute is not a number (its
float() conversion raises) next to a well-formed path sibling. -/
def docBadCircle : XmlNode :=
  .elem "svg" []
    [.elem "circle" [("cx", "abc")] [],
     .elem "path" [("id", "p1"), ("d", "M0,0"), ("fill", "blue")] []]

/-! ## Theorems -/

/-! ### Helper lemmas for the color-resolver refinement -/

/-- int(_,16) on a duplicated character: sign or whitespace duplicated
never parses, so exactly the hex digits succeed, with value 17*v. -/
theorem pyInt16_dup (c : Char) :
    pyInt16 [c, c] = if isHexChar c then some (17 * (hexVal c : Int)) else none := by
  by_cases hhex : isHexChar c
  · have hws : pyIsSpace c = false := by
      cases hpw : pyIsSpace c with
      | false => rfl
      | true =>
        exfalso
        have hd : c = ' ' ∨ c = '\t' ∨ c = '\n' ∨ c = '\r' ∨
            c = '\x0b' ∨ c = '\x0c' := by
          simpa [pyIsSpace] using hpw
        rcases hd with h | h | h | h | h | h <;> subst h <;>
          exact absurd hhex (by decide)
    have hminus : ¬ c = '-' := fun h => absurd hhex (by subst h; decide)
    have hplus : ¬ c = '+' := fun h => absurd hhex (by subst h; decide)
    have hsome : (hexDigit c).isSome = true := hhex
    rw [if_pos hhex]
    simp only [pyInt16, List.dropWhile_cons, hws, Bool.false_eq_true, if_false,
      List.dropWhile_nil, List.reverse_cons, List.reverse_nil, List.nil_append,
      List.cons_append, hminus, hplus, or_self, if_false, List.foldl,
      reduceCtorEq, hsome, List.all_cons, List.all_nil, Bool.and_true,
      if_true]
    simp [hexVal, hsome]
    ring
  · by_cases hws : pyIsSpace c
    · have hd : c = ' ' ∨ c = '\t' ∨ c = '\n' ∨ c = '\r' ∨
          c = '\x0b' ∨ c = '\x0c' := by
        simpa [pyIsSpace] using hws
      rcases hd with h | h | h | h | h | h <;> subst h <;> decide
    · by_cases hminus : c = '-'
      · subst hminus; decide
      · by_cases hplus : c = '+'
        · subst hplus; decide
        · have hsome : (hexDigit c).isSome = false := by
            simpa [isHexChar] using hhex
          rw [if_neg hhex]
          simp [pyInt16, List.dropWhile_cons, hws, hminus, hplus, hsome]

/-- Away from the dead "none" entry, the code's color_map and the spec's
eight-color table agree. -/
theorem table_lookup_eq {t : String} (h : t ≠ "none") :
    dictGet colorMap t = dictGet colorTable t := by
  simp only [colorMap, colorTable, dictGet]
  split_ifs <;> simp_all

/-- The rgb() regex cannot match a string beginning with '#'. -/
theorem rgbMatch_hash (rest : List Char) : rgbMatch ('#' :: rest) = none := rfl

/-- The rgba() regex cannot match a string beginning with '#'. -/
theorem rgbaMatch_hash (rest : List Char) : rgbaMatch ('#' :: rest) = none := rfl

/-- The code's hex branch computes exactly the spec's hex clause on the
'#'-stripped characters. -/
theorem hexBranch_eq (s : String) :
    hexBranch s = specHexColor (s.data.dropWhile (· = '#')) := by
  unfold hexBranch specHexColor
  generalize s.data.dropWhile (· = '#') = cs
  rcases cs with _ | ⟨a, _ | ⟨b, _ | ⟨c, _ | ⟨d, _ | ⟨e, _ | ⟨f, _ | ⟨g', _ | ⟨h, _ | ⟨i, rest⟩⟩⟩⟩⟩⟩⟩⟩⟩
  · rfl
  · rfl
  · rfl
  · simp only [pyInt16_dup]
    split_ifs with h1 h2 h3 h4 <;>
      simp_all [Option.bind] <;>
      first
        | tauto
        | exact ⟨by push_cast; ring, by push_cast; ring, by push_cast; ring⟩
        | simp
  · rfl
  · rfl
  · cases h1 : pyInt16 [a, b] <;> cases h2 : pyInt16 [c, d] <;>
      cases h3 : pyInt16 [e, f] <;> simp [h1, h2, h3, Option.bind]
  · rfl
  · cases h1 : pyInt16 [a, b] <;> cases h2 : pyInt16 [c, d] <;>
      cases h3 : pyInt16 [e, f] <;> cases h4 : pyInt16 [g', h] <;>
      simp [h1, h2, h3, h4, Option.bind]
  · rfl

/-- A string passing startswith('#') has '#' as its first character. -/
theorem headIsHash_data {s : String} (h : headIsHash s = true) :
    ∃ rest, s.data = '#' :: rest := by
  unfold headIsHash at h
  cases hd : s.data with
  | nil => rw [hd] at h; simp at h
  | cons c0 rest =>
    rw [hd] at h
    simp at h
    exact ⟨rest, by rw [h]⟩

/-- The code's resolver refines the spec's clause list everywhere. -/
theorem parseColor_eq_spec (s : String) : parseColor s = parseColorSpec s := by
  unfold parseColor parseColorSpec
  by_cases h0 : s = "" ∨ pyLower s = "none"
  · rw [if_pos h0, if_pos h0]
  · rw [if_neg h0, if_neg h0]
    have hn : pyLower s ≠ "none" := fun hh => h0 (Or.inr hh)
    rw [table_lookup_eq hn]
    cases hl : dictGet colorTable (pyLower s) with
    | some c => rfl
    | none =>
      cases hh : headIsHash s with
      | false => rfl
      | true =>
        simp only [if_pos rfl]
        rw [hexBranch_eq]
        cases hx : specHexColor (s.data.dropWhile (· = '#')) with
        | some c => rfl
        | none =>
          obtain ⟨rest, hd⟩ := headIsHash_data hh
          rw [hd, rgbMatch_hash, rgbaMatch_hash]
          rfl

/-- C2 (amended): the resolver agrees with the spec's first-match-wins
clause list — empty/"none", the eight-color table, hex with all leading
'#' stripped and its 6/8-length slices read under int(_, 16)'s
sign/whitespace tolerance, the rgb()/rgba() regex grammar matched as a
prefix, default opaque black — for every input string; and the three
canonical equalities of the claim hold. -/
theorem parse_color_matches_spec :
    (∀ s, parseColor s = parseColorSpec s) ∧
    parseColor "#F00" = (1, 0, 0, 1) ∧
    parseColor "#ff0000" = (1, 0, 0, 1) ∧
    parseColor "red" = (1, 0, 0, 1) := by
  refine ⟨parseColor_eq_spec, ?_, ?_, rfl⟩
  · have h : parseColor "#F00"
        = ((255 : Rat) / 255, (0 : Rat) / 255, (0 : Rat) / 255, 1) := rfl
    rw [h]; norm_num
  · have h : parseColor "#ff0000"
        = ((255 : Rat) / 255, (0 : Rat) / 255, (0 : Rat) / 255, 1) := rfl
    rw [h]; norm_num


/-- C10: for every input string the path translator returns the same fixed
placeholder value [[0,0,0],[1,2,0,0,0,0]] and never fails — its output is a
constant, independent of the path data. -/
theorem parse_svg_path_is_constant (d : String) :
    parseSvgPath d = [[0, 0, 0], [1, 2, 0, 0, 0, 0]] := rfl

/-- C1: the claim says _parse_svg_path("M0,0 L10,0 L10,10 Z") yields a
closed 3-vertex polyline at (0,0), (10,0), (10,10) with zero tangents; the
code instead returns its fixed placeholder on this input, so the claim
describes intended, unimplemented behavior (the function's own comments
call it a placeholder while its docstring claims to parse M/L/C/Z). -/
theorem parse_svg_path_triangle_placeholder :
    parseSvgPath "M0,0 L10,0 L10,10 Z" = [[0, 0, 0], [1, 2, 0, 0, 0, 0]] := rfl

/-- C6 (code bug evidence): _parse_color does not clamp, so channels above
255 and alphas above 1 yield components outside [0,1], contradicting the
claim (and the function's own docstring, which promises range 0-1). -/
theorem parse_color_exceeds_unit_interval :
    parseColor "rgb(300,0,0)" = ((300 : Rat) / 255, 0, 0, 1) ∧
    ¬ ((300 : Rat) / 255 ≤ 1) ∧
    parseColor "rgba(0,0,0,5)" = (0, 0, 0, 5) ∧
    ¬ ((5 : Rat) ≤ 1) := by
  have h1 : parseColor "rgb(300,0,0)"
      = ((300 : Rat) / 255, (0 : Rat) / 255, (0 : Rat) / 255, 1) := rfl
  have h2 : parseColor "rgba(0,0,0,5)"
      = ((0 : Rat) / 255, (0 : Rat) / 255, (0 : Rat) / 255, 1 * (5 : Rat)) := rfl
  rw [h1, h2]
  norm_num

/-- C2 (counterexample): three inputs the claim's clauses send to opaque
black get a color instead: the rgb() grammar is matched only as a prefix
(trailing characters are ignored); every leading '#' is stripped before
the hex length test, so "##f00" parses as shorthand hex; and hex pairs
are read with Python int(_, 16), which accepts a sign inside the
two-character slice, so "#-f-f-f" yields signed channels (int('-f',16)
= -15). -/
theorem parse_color_counterexample :
    parseColor "rgb(255,255,255)x" = (1, 1, 1, 1) ∧
    parseColor "##f00" = (1, 0, 0, 1) ∧
    parseColor "#-f-f-f" = (-15 / 255, -15 / 255, -15 / 255, 1) ∧
    ((1, 1, 1, 1) : Color) ≠ (0, 0, 0, 1) ∧
    ((1, 0, 0, 1) : Color) ≠ (0, 0, 0, 1) ∧
    ((-15 / 255, -15 / 255, -15 / 255, 1) : Color) ≠ (0, 0, 0, 1) := by
  have h1 : parseColor "rgb(255,255,255)x"
      = ((255 : Rat) / 255, (255 : Rat) / 255, (255 : Rat) / 255, 1) := rfl
  have h2 : parseColor "##f00"
      = ((255 : Rat) / 255, (0 : Rat) / 255, (0 : Rat) / 255, 1) := rfl
  have h3 : parseColor "#-f-f-f"
      = (((-15 : Int) : Rat) / 255, ((-15 : Int) : Rat) / 255,
         ((-15 : Int) : Rat) / 255, 1) := rfl
  refine ⟨by rw [h1]; norm_num, by rw [h2]; norm_num, by rw [h3]; push_cast; norm_num,
    by simp [Prod.ext_iff], by simp [Prod.ext_iff], by norm_num [Prod.ext_iff]⟩

/-- C5 (code bug evidence): analyze_structure resets element_groups but
not structure_map, so analyzing the same document twice on one parser
instance assigns different synthetic ids (element_1 the first time,
element_3 the second) — the fallback-ID scheme is not a function of the
document alone. -/
theorem synthetic_ids_differ_across_runs :
    (analyzeStructure docPlain initPState).paths = ["element_1"] ∧
    (analyzeStructure docPlain (analyzeStructure docPlain initPState)).paths
      = ["element_3"] ∧
    (analyzeStructure docPlain initPState).paths ≠
      (analyzeStructure docPlain (analyzeStructure docPlain initPState)).paths := by
  refine ⟨by decide, by decide, by decide⟩

/-- C8 (counterexample): width "abc" strips to nothing, yet get_svg_size
returns the 800x600 default instead of failing with InvalidDimension (the
inner ValueError is swallowed); width "px800" has no numeric prefix, yet
parsing succeeds because stripping removes non-numeric characters
anywhere, not only trailing units. -/
theorem svg_size_counterexample :
    getSvgSize (.elem "svg" [("width", "abc"), ("height", "500")] [])
      = (800, 600) ∧
    svgSizeInner (.elem "svg" [("width", "abc"), ("height", "500")] [])
      = none ∧
    getSvgSize (.elem "svg" [("width", "px800"), ("height", "500")] [])
      = (800, 500) := by
  have h : getSvgSize (.elem "svg" [("width", "px800"), ("height", "500")] [])
      = (1 * ((800 : Nat) : Rat), 1 * ((500 : Nat) : Rat)) := rfl
  refine ⟨by decide, by decide, ?_⟩
  rw [h]; norm_num

/-- C4 (counterexample): with background_color set to the transparent
token "none" the conversion raises an uncaught ValueError (int("no", 16))
instead of succeeding without a background layer, and with the falsy empty
token the Background layer is still emitted (empty) rather than omitted. -/
theorem background_none_crashes :
    buildAnimation "none" 800 600 (analyzeStructure (.elem "svg" [] []) initPState)
      = .error "ValueError: invalid literal for int() with base 16" ∧
    buildAnimation "" 800 600 (analyzeStructure (.elem "svg" [] []) initPState)
      = .ok [{ name := "Background", shapes := [] },
             { name := "Main Elements", shapes := [] }] := by
  refine ⟨rfl, rfl⟩

set_option maxHeartbeats 2000000 in
/-- C3 (counterexample): for a document whose only path lives inside a
group, the assembled layer list places that path's shape group in the
main layer AND in the group's layer — classification is flat, so a nested
path is not confined to its group's layer. -/
theorem nested_path_in_main_layer :
    buildAnimation "#ffffff" 800 600 (analyzeStructure docNested initPState)
      = .ok [{ name := "Background",
               shapes := [.bgRect (400, 300) (800, 600) (1, 1, 1, 1)] },
             { name := "Main Elements",
               shapes := [.pathShape [[0, 0, 0], [1, 2, 0, 0, 0, 0]] (1, 0, 0, 1)] },
             { name := "Group 1",
               shapes := [.pathShape [[0, 0, 0], [1, 2, 0, 0, 0, 0]] (1, 0, 0, 1)] }] := by
  have hst : analyzeStructure docNested initPState =
    { structureMap := [("element_0", "svg", none), ("g1", "g", some "element_0"),
                       ("p1", "path", some "g1")],
      groups := ["g1"],
      paths := ["p1"],
      shapes := [],
      origElems := [("g1", [.path "M0,0 L1,1" "red"]),
                    ("p1", [.path "M0,0 L1,1" "red"])] } := by decide
  rw [hst]
  have h : buildAnimation "#ffffff" 800 600
    { structureMap := [("element_0", "svg", none), ("g1", "g", some "element_0"),
                       ("p1", "path", some "g1")],
      groups := ["g1"],
      paths := ["p1"],
      shapes := [],
      origElems := [("g1", [.path "M0,0 L1,1" "red"]),
                    ("p1", [.path "M0,0 L1,1" "red"])] }
      = .ok [{ name := "Background",
               shapes := [.bgRect ((800 : Rat) / 2, (600 : Rat) / 2) (800, 600)
                 ((255 : Rat) / 255, (255 : Rat) / 255, (255 : Rat) / 255, 1)] },
             { name := "Main Elements",
               shapes := [.pathShape [[0, 0, 0], [1, 2, 0, 0, 0, 0]] (1, 0, 0, 1)] },
             { name := "Group 1",
               shapes := [.pathShape [[0, 0, 0], [1, 2, 0, 0, 0, 0]] (1, 0, 0, 1)] }] := rfl
  rw [h]; norm_num

set_option maxHeartbeats 2000000 in
/-- C7 (counterexample): the circle with an unparseable cx is skipped and
its path sibling still converted, but the returned result records no
diagnostic for it — messages holds only the preview note, the failure was
merely logged to the console. -/
theorem primitive_failure_not_recorded :
    processSvg "#ffffff" 800 600 docBadCircle "preview.html"
      = .ok { success := true,
              messages := ["创建了Lottie预览: preview.html"],
              layers := some
                [{ name := "Background",
                   shapes := [.bgRect (400, 300) (800, 600) (1, 1, 1, 1)] },
                 { name := "Main Elements",
                   shapes := [.pathShape [[0, 0, 0], [1, 2, 0, 0, 0, 0]] (0, 0, 1, 1)] }] } := by
  have h : processSvg "#ffffff" 800 600 docBadCircle "preview.html"
      = .ok { success := true,
              messages := ["创建了Lottie预览: preview.html"],
              layers := some
                [{ name := "Background",
                   shapes := [.bgRect ((800 : Rat) / 2, (600 : Rat) / 2) (800, 600)
                     ((255 : Rat) / 255, (255 : Rat) / 255, (255 : Rat) / 255, 1)] },
                 { name := "Main Elements",
                   shapes := [.pathShape [[0, 0, 0], [1, 2, 0, 0, 0, 0]] (0, 0, 1, 1)] }] } := rfl
  rw [h]; norm_num

/-- C4 (amended): the Background layer is emitted for every document and
background setting; the empty-string token yields an empty Background
layer (still present), while the token "none" makes the conversion fail
with an uncaught ValueError (int('no', 16)) — no input omits the
background layer.  The hex slicing truncates, so "#fffff" still succeeds
(the final one-character slice parses as int('f',16) = 15), and
int(_, 16)'s sign tolerance admits "#-fffff" with a negative red
channel. -/
theorem background_layer_always_present (st : PState) (w h : Rat) :
    buildAnimation "none" w h st
      = .error "ValueError: invalid literal for int() with base 16" ∧
    buildAnimation "" w h st
      = .ok ({ name := "Background", shapes := [] }
              :: mainLayer st :: groupLayers st) ∧
    buildAnimation "#fffff" w h st
      = .ok ({ name := "Background",
               shapes := [.bgRect (w / 2, h / 2) (w, h)
                 (((255 : Int) : Rat) / 255, ((255 : Int) : Rat) / 255,
                  ((15 : Int) : Rat) / 255, 1)] }
              :: mainLayer st :: groupLayers st) ∧
    buildAnimation "#-fffff" w h st
      = .ok ({ name := "Background",
               shapes := [.bgRect (w / 2, h / 2) (w, h)
                 (((-15 : Int) : Rat) / 255, ((255 : Int) : Rat) / 255,
                  ((255 : Int) : Rat) / 255, 1)] }
              :: mainLayer st :: groupLayers st) :=
  ⟨rfl, rfl, rfl, rfl⟩

/-- C4 amended witness at a concrete state. -/
theorem background_layer_always_present_witness :
    buildAnimation "none" 800 600 initPState
      = .error "ValueError: invalid literal for int() with base 16" ∧
    buildAnimation "" 800 600 initPState
      = .ok ({ name := "Background", shapes := [] }
              :: mainLayer initPState :: groupLayers initPState) ∧
    buildAnimation "#fffff" 800 600 initPState
      = .ok ({ name := "Background",
               shapes := [.bgRect ((800 : Rat) / 2, (600 : Rat) / 2) (800, 600)
                 (((255 : Int) : Rat) / 255, ((255 : Int) : Rat) / 255,
                  ((15 : Int) : Rat) / 255, 1)] }
              :: mainLayer initPState :: groupLayers initPState) ∧
    buildAnimation "#-fffff" 800 600 initPState
      = .ok ({ name := "Background",
               shapes := [.bgRect ((800 : Rat) / 2, (600 : Rat) / 2) (800, 600)
                 (((-15 : Int) : Rat) / 255, ((255 : Int) : Rat) / 255,
                  ((255 : Int) : Rat) / 255, 1)] }
              :: mainLayer initPState :: groupLayers initPState) :=
  background_layer_always_present initPState 800 600

/-- C8 (amended): get_svg_size never raises and there is no
InvalidDimension error: an element's width/height strings (textual
defaults "800"/"600" when absent) are stripped of every character other
than digits and dots — wherever it occurs, not only trailing units — and
handed to float(); if either conversion fails the default pair
(800.0, 600.0) is returned instead of an error. -/
theorem svg_size_total_with_default :
    (∀ w h : String,
      getSvgSize (.elem "svg" [("width", w), ("height", h)] []) =
        match pyFloatS (stripNonNumeric (pyOr w "800")),
              pyFloatS (stripNonNumeric (pyOr h "600")) with
        | some wv, some hv => (wv, hv)
        | _, _ => (800, 600)) ∧
    getSvgSize (.elem "svg" [] []) = (800, 600) ∧
    getSvgSize (.elem "svg" [("width", "800px"), ("height", "600px")] [])
      = (800, 600) := by
  refine ⟨fun w h => ?_, ?_, ?_⟩
  · cases h1 : pyFloatS (stripNonNumeric (pyOr w "800")) <;>
      cases h2 : pyFloatS (stripNonNumeric (pyOr h "600")) <;>
      simp [getSvgSize, svgSizeInner, XmlNode.getAttribute, attrsGet, h1, h2]
  · have h : getSvgSize (.elem "svg" [] [])
        = (1 * ((800 : Nat) : Rat), 1 * ((600 : Nat) : Rat)) := rfl
    rw [h]; norm_num
  · have h : getSvgSize (.elem "svg" [("width", "800px"), ("height", "600px")] [])
        = (1 * ((800 : Nat) : Rat), 1 * ((600 : Nat) : Rat)) := rfl
    rw [h]; norm_num

/-- C7 (amended): primitive failures are absorbed (a failing primitive is
skipped, siblings still processed), but the returned result never records
a per-primitive diagnostic: whenever the background color parses, the
result is success with the preview note as its only message, for every
document — diagnostics for failing primitives are printed, not
returned. -/
theorem diagnostics_never_recorded (doc : XmlNode) (bg htmlPath : String)
    (w h : Rat) (shapes : List ShapeGroup)
    (hbg : bgShapes bg w h = .ok shapes) :
    processSvg bg w h doc htmlPath
      = .ok { success := true,
              messages := ["创建了Lottie预览: " ++ htmlPath],
              layers := some ({ name := "Background", shapes := shapes }
                :: mainLayer (analyzeStructure doc initPState)
                :: groupLayers (analyzeStructure doc initPState)) } := by
  simp [processSvg, buildAnimation, hbg]

/-- C7 amended witness at a concrete document and background. -/
theorem diagnostics_never_recorded_witness :
    processSvg "#ffffff" 800 600 (.elem "svg" [] []) "p.html"
      = .ok { success := true,
              messages := ["创建了Lottie预览: p.html"],
              layers := some
                ({ name := "Background",
                   shapes := [.bgRect ((800 : Rat) / 2, (600 : Rat) / 2) (800, 600)
                     ((255 : Rat) / 255, (255 : Rat) / 255, (255 : Rat) / 255, 1)] }
                  :: mainLayer (analyzeStructure (.elem "svg" [] []) initPState)
                  :: groupLayers (analyzeStructure (.elem "svg" [] []) initPState)) } :=
  diagnostics_never_recorded (.elem "svg" [] []) "#ffffff" "p.html" 800 600 _ rfl

/-! ### State lemmas for the structural claims -/

/-- Looking up after a dict insertion. -/
theorem dictGet_dictInsert {α : Type} (d : List (String × α)) (k k' : String) (v : α) :
    dictGet (dictInsert d k v) k' = if k = k' then some v else dictGet d k' := by
  induction d with
  | nil => simp [dictInsert, dictGet, eq_comm]
  | cons kv rest ih =>
    obtain ⟨k0, v0⟩ := kv
    by_cases h : k0 = k
    · subst h
      simp only [dictInsert, if_pos rfl]
      by_cases h2 : k0 = k' <;> simp [dictGet, h2]
    · simp only [dictInsert, if_neg h, dictGet]
      by_cases h2 : k0 = k'
      · have hk : ¬ k = k' := fun hh => h (h2.trans hh.symm)
        simp [h2, hk]
      · by_cases h3 : k = k'
        · subst h3; simp [h2, ih]
        · simp [h2, h3, ih]

/-- Processing one leaf path element: the id (explicit or synthetic) is
classified into paths and its record stored. -/
theorem processNode_path (a : List (String × String)) (pid : Option String) (st : PState) :
    ∃ eid dd ff, processNode (.elem "path" a []) pid st =
      { structureMap := dictInsert st.structureMap eid ("path", pid),
        groups := st.groups, paths := st.paths ++ [eid], shapes := st.shapes,
        origElems := dictInsert st.origElems eid [.path dd ff] } :=
  ⟨_, _, _, rfl⟩

/-- Processing a list of leaf path elements preserves groups and shapes,
adds one paths entry per element, and keeps every paths id mapped to a
one-record path list (id collisions only overwrite path records with path
records). -/
theorem processNodes_paths_inv (l : List (List (String × String))) (parent : String) :
    ∀ st : PState,
    (∀ pid ∈ st.paths, ∃ dd ff, dictGet st.origElems pid = some [.path dd ff]) →
    (processNodes (l.map fun a => XmlNode.elem "path" a []) parent st).groups = st.groups ∧
    (processNodes (l.map fun a => XmlNode.elem "path" a []) parent st).shapes = st.shapes ∧
    (processNodes (l.map fun a => XmlNode.elem "path" a []) parent st).paths.length
      = st.paths.length + l.length ∧
    (∀ pid ∈ (processNodes (l.map fun a => XmlNode.elem "path" a []) parent st).paths,
      ∃ dd ff, dictGet (processNodes (l.map fun a => XmlNode.elem "path" a []) parent st).origElems pid
        = some [.path dd ff]) := by
  induction l with
  | nil =>
    intro st h
    exact ⟨rfl, rfl, by simp [processNodes], h⟩
  | cons a rest ih =>
    intro st h
    obtain ⟨eid, dd, ff, hstep⟩ := processNode_path a (some parent) st
    have hmap : (a :: rest).map (fun a => XmlNode.elem "path" a [])
        = XmlNode.elem "path" a [] :: rest.map (fun a => XmlNode.elem "path" a []) := rfl
    rw [hmap]
    have hpn : processNodes (XmlNode.elem "path" a [] :: rest.map fun a => XmlNode.elem "path" a []) parent st
        = processNodes (rest.map fun a => XmlNode.elem "path" a []) parent
            (processNode (XmlNode.elem "path" a []) (some parent) st) := rfl
    rw [hpn, hstep]
    have hinv : ∀ pid ∈ (st.paths ++ [eid]),
        ∃ dd' ff', dictGet (dictInsert st.origElems eid [ElementData.path dd ff]) pid
          = some [.path dd' ff'] := by
      intro pid hpid
      rw [dictGet_dictInsert]
      by_cases he : eid = pid
      · exact ⟨dd, ff, by rw [if_pos he]⟩
      · rw [if_neg he]
        rcases List.mem_append.mp hpid with hmem | hmem
        · exact h pid hmem
        · simp at hmem; exact absurd hmem.symm he
    obtain ⟨hg, hs, hl, hp⟩ := ih
      { st with structureMap := dictInsert st.structureMap eid ("path", some parent),
                paths := st.paths ++ [eid],
                origElems := dictInsert st.origElems eid [.path dd ff] } hinv
    refine ⟨hg, hs, ?_, hp⟩
    rw [hl]
    simp
    omega

/-- A filterMap that never drops keeps the length. -/
theorem filterMap_length_of_isSome {α β : Type} (f : α → Option β) (l : List α)
    (h : ∀ x ∈ l, (f x).isSome) : (l.filterMap f).length = l.length := by
  induction l with
  | nil => simp
  | cons a rest ih =>
    have ha := h a (by simp)
    rw [List.filterMap_cons]
    cases hfa : f a with
    | none => rw [hfa] at ha; simp at ha
    | some b => simp only [List.length_cons]; rw [ih (fun x hx => h x (by simp [hx]))]

/-- The shape list of the main layer, unfolded. -/
theorem mainLayer_shapes (st : PState) : (mainLayer st).shapes =
    (st.paths.filterMap fun pid =>
      match getElementById st pid with
      | some (e :: _) => addPathToLayer e
      | _ => none)
    ++ (st.shapes.filterMap fun sid =>
      match getElementById st sid with
      | some (e :: _) => some (addShapeToLayer e)
      | _ => none) := rfl

/-- With no classified shapes and every paths id resolving to a path
record, the main layer holds exactly one shape group per paths entry. -/
theorem mainLayer_length (st : PState)
    (hshapes : st.shapes = [])
    (h : ∀ pid ∈ st.paths, ∃ dd ff, dictGet st.origElems pid = some [.path dd ff]) :
    (mainLayer st).shapes.length = st.paths.length := by
  rw [mainLayer_shapes, hshapes]
  simp only [List.filterMap_nil, List.append_nil]
  apply filterMap_length_of_isSome
  intro pid hpid
  obtain ⟨dd, ff, hp⟩ := h pid hpid
  unfold getElementById
  rw [hp]
  simp [addPathToLayer]

/-- C9: a document whose element children are exactly N path elements (no
groups, no shapes) assembles — whenever the background color parses, e.g.
the default #ffffff — into exactly one Background layer plus one
"Main Elements" layer holding exactly N shape groups, and no group-named
layers. -/
theorem flat_document_round_trip (attrsList : List (List (String × String)))
    (bg : String) (w h : Rat) (shapes : List ShapeGroup)
    (hbg : bgShapes bg w h = .ok shapes) :
    ∃ mains, buildAnimation bg w h (analyzeStructure (pathDoc attrsList) initPState)
      = .ok [{ name := "Background", shapes := shapes },
             { name := "Main Elements", shapes := mains }] ∧
      mains.length = attrsList.length := by
  have hroot : analyzeStructure (pathDoc attrsList) initPState
      = processNodes (attrsList.map fun a => XmlNode.elem "path" a []) "element_0"
          { structureMap := [("element_0", ("svg", none))],
            groups := [], paths := [], shapes := [], origElems := [] } := rfl
  obtain ⟨hg, hs, hl, hp⟩ := processNodes_paths_inv attrsList "element_0"
    { structureMap := [("element_0", ("svg", none))],
      groups := [], paths := [], shapes := [], origElems := [] }
    (by intro pid hpid; simp at hpid)
  set st := processNodes (attrsList.map fun a => XmlNode.elem "path" a []) "element_0"
    { structureMap := [("element_0", ("svg", none))],
      groups := [], paths := [], shapes := [], origElems := [] } with hst
  refine ⟨(mainLayer st).shapes, ?_, ?_⟩
  · unfold buildAnimation
    rw [hbg, hroot]
    have hglayers : groupLayers st = [] := by
      unfold groupLayers
      rw [hg]
      rfl
    rw [hglayers]
    rfl
  · rw [mainLayer_length st hs hp, hl]
    simp

/-- C9 witness: two paths (one with attributes, one without) under the
default background. -/
theorem flat_document_round_trip_witness :
    ∃ mains, buildAnimation "#ffffff" 800 600
        (analyzeStructure (pathDoc [[("d", "M0,0 L10,0")], []]) initPState)
      = .ok [{ name := "Background",
               shapes := [.bgRect ((800 : Rat) / 2, (600 : Rat) / 2) (800, 600)
                 ((255 : Rat) / 255, (255 : Rat) / 255, (255 : Rat) / 255, 1)] },
             { name := "Main Elements", shapes := mains }] ∧
      mains.length = 2 :=
  flat_document_round_trip [[("d", "M0,0 L10,0")], []] "#ffffff" 800 600 _ rfl

/-! ### Structural lemmas for the layer-assembly claims -/

/-- dict lookup distributes over append. -/
theorem dictGet_append {α : Type} (A B : List (String × α)) (k : String) :
    dictGet (A ++ B) k =
      match dictGet A k with
      | some v => some v
      | none => dictGet B k := by
  induction A with
  | nil => simp [dictGet]
  | cons kv rest ih =>
    obtain ⟨k0, v0⟩ := kv
    by_cases h : k0 = k <;> simp [dictGet, h, ih]

/-- Inserting an absent key appends. -/
theorem dictInsert_fresh {α : Type} (d : List (String × α)) (k : String) (v : α)
    (h : dictGet d k = none) : dictInsert d k v = d ++ [(k, v)] := by
  induction d with
  | nil => simp [dictInsert]
  | cons kv rest ih =>
    obtain ⟨k0, v0⟩ := kv
    by_cases hk : k0 = k
    · rw [dictGet] at h; rw [if_pos hk] at h; exact absurd h (by simp)
    · rw [dictGet, if_neg hk] at h
      simp [dictInsert, hk, ih h]

/-- Processing one explicitly-identified path element. -/
theorem processNode_pathItem (p : PathItem) (hpid : p.pid ≠ "")
    (parent : Option String) (st : PState) :
    processNode p.node parent st =
      { structureMap := dictInsert st.structureMap p.pid ("path", parent),
        groups := st.groups, paths := st.paths ++ [p.pid], shapes := st.shapes,
        origElems := dictInsert st.origElems p.pid [p.record] } := by
  obtain ⟨pid, d, f⟩ := p
  simp only [PathItem.pid] at hpid
  simp [processNode, PathItem.node, XmlNode.getAttribute, attrsGet,
        saveNodeContent, processNodes, PathItem.record, pyOr, hpid]

/-- Extracting the children of a group of paths yields their records. -/
theorem extract_kids (kids : List PathItem) :
    extractNodesElements (kids.map PathItem.node) = kids.map PathItem.record := by
  induction kids with
  | nil => rfl
  | cons k rest ih =>
    simp only [List.map_cons, extractNodesElements, ih]
    rfl

/-- Processing a group element: classify the group, store its nonempty
child records, then process the children. -/
theorem processNode_group (gid : String) (kids : List PathItem) (hgid : gid ≠ "")
    (parent : Option String) (st : PState) :
    processNode (Item.group gid kids).node parent st =
      processNodes (kids.map PathItem.node) gid
        { structureMap := dictInsert st.structureMap gid ("g", parent),
          groups := st.groups ++ [gid], paths := st.paths, shapes := st.shapes,
          origElems :=
            if kids = [] then st.origElems
            else dictInsert st.origElems gid (kids.map PathItem.record) } := by
  cases kids with
  | nil =>
    simp [processNode, Item.node, XmlNode.getAttribute, attrsGet,
          saveNodeContent, extractNodesElements, pyOr, hgid]
  | cons k rest =>
    have hx : extractNodesElements ((k :: rest).map PathItem.node)
        = (k :: rest).map PathItem.record := extract_kids _
    rw [List.map_cons] at hx
    simp [processNode, Item.node, XmlNode.getAttribute, attrsGet,
          saveNodeContent, pyOr, hgid, hx]

theorem processKids_state (ps : List PathItem) :
    ∀ (parent : String) (st : PState),
    (∀ p ∈ ps, p.pid ≠ "") →
    (∀ p ∈ ps, dictGet st.origElems p.pid = none) →
    (ps.map PathItem.pid).Nodup →
    ∃ sm, processNodes (ps.map PathItem.node) parent st =
      { structureMap := sm,
        groups := st.groups, paths := st.paths ++ ps.map PathItem.pid,
        shapes := st.shapes,
        origElems := st.origElems ++ ps.map fun p => (p.pid, [p.record]) } := by
  induction ps with
  | nil =>
    intro parent st _ _ _
    exact ⟨st.structureMap, by simp [processNodes]⟩
  | cons p rest ih =>
    intro parent st hne hfresh hnodup
    have hp := processNode_pathItem p (hne p (by simp)) (some parent) st
    have hins : dictInsert st.origElems p.pid [p.record]
        = st.origElems ++ [(p.pid, [p.record])] :=
      dictInsert_fresh _ _ _ (hfresh p (by simp))
    rw [List.map_cons]
    have hpn : processNodes (p.node :: rest.map PathItem.node) parent st
        = processNodes (rest.map PathItem.node) parent (processNode p.node (some parent) st) := rfl
    rw [hpn, hp, hins]
    obtain ⟨sm, hrest⟩ := ih parent
      { structureMap := dictInsert st.structureMap p.pid ("path", some parent),
        groups := st.groups, paths := st.paths ++ [p.pid], shapes := st.shapes,
        origElems := st.origElems ++ [(p.pid, [p.record])] }
      (fun q hq => hne q (by simp [hq]))
      (by
        intro q hq
        simp only
        rw [dictGet_append]
        rw [hfresh q (by simp [hq])]
        have hqp : p.pid ≠ q.pid := by
          intro hh
          have : q.pid ∈ rest.map PathItem.pid := List.mem_map_of_mem _ hq
          rw [← hh] at this
          exact (List.nodup_cons.mp hnodup).1 this
        simp [dictGet, hqp])
      (List.nodup_cons.mp hnodup).2
    refine ⟨sm, ?_⟩
    rw [hrest]
    simp

/-- A record map has no entry for a foreign key. -/
theorem dictGet_mapRecord_none (ps : List PathItem) (i : String)
    (h : ∀ q ∈ ps, q.pid ≠ i) :
    dictGet (ps.map fun p => (p.pid, [p.record])) i = none := by
  induction ps with
  | nil => simp [dictGet]
  | cons k ks ih =>
    simp only [List.map_cons, dictGet]
    rw [if_neg (h k (by simp))]
    exact ih (fun q hq => h q (by simp [hq]))

/-- A record map resolves each of its members (keys distinct). -/
theorem dictGet_mapRecord_mem (ps : List PathItem) (p : PathItem) (hp : p ∈ ps)
    (hnodup : (ps.map PathItem.pid).Nodup) :
    dictGet (ps.map fun q => (q.pid, [q.record])) p.pid = some [p.record] := by
  induction ps with
  | nil => simp at hp
  | cons k ks ih =>
    have hn : (∀ x ∈ ks, ¬ x.pid = k.pid) ∧ (ks.map PathItem.pid).Nodup := by
      simpa using hnodup
    rcases List.mem_cons.mp hp with hq | hq
    · subst hq
      simp [dictGet]
    · have hkp : k.pid ≠ p.pid := fun hh => hn.1 p hq hh.symm
      simp only [List.map_cons, dictGet]
      rw [if_neg hkp]
      exact ih hq hn.2

/-- The parser state after a document of bare paths and one-level groups
with distinct non-empty ids: groups, paths and stored records accumulate
in document order. -/
theorem processItems_state (items : List Item) :
    ∀ (parent : String) (st : PState),
    (∀ i ∈ itemsIds items, i ≠ "") →
    (∀ i ∈ itemsIds items, dictGet st.origElems i = none) →
    (itemsIds items).Nodup →
    ∃ sm, processNodes (items.map Item.node) parent st =
      { structureMap := sm,
        groups := st.groups ++ items.flatMap Item.groupIds,
        paths := st.paths ++ items.flatMap Item.pathIds,
        shapes := st.shapes,
        origElems := st.origElems ++ items.flatMap Item.entries } := by
  induction items with
  | nil =>
    intro parent st _ _ _
    exact ⟨st.structureMap, by simp [processNodes]⟩
  | cons x rest ih =>
    intro parent st hne hfresh hnodup
    have hids : itemsIds (x :: rest) = x.ids ++ itemsIds rest := by
      simp [itemsIds]
    rw [hids] at hne hfresh hnodup
    have hnodup' := List.nodup_append.mp hnodup
    have hdisj : x.ids.Disjoint (itemsIds rest) := hnodup'.2.2
    rw [List.map_cons]
    have hpn : processNodes (x.node :: rest.map Item.node) parent st
        = processNodes (rest.map Item.node) parent (processNode x.node (some parent) st) := rfl
    rw [hpn]
    cases x with
    | single p =>
      have hne_p : p.pid ≠ "" := hne p.pid (by simp [Item.ids])
      have hp := processNode_pathItem p hne_p (some parent) st
      have hins : dictInsert st.origElems p.pid [p.record]
          = st.origElems ++ [(p.pid, [p.record])] :=
        dictInsert_fresh _ _ _ (hfresh p.pid (by simp [Item.ids]))
      rw [show (Item.single p).node = p.node from rfl, hp, hins]
      obtain ⟨sm, hrest⟩ := ih parent
        { structureMap := dictInsert st.structureMap p.pid ("path", some parent),
          groups := st.groups, paths := st.paths ++ [p.pid], shapes := st.shapes,
          origElems := st.origElems ++ [(p.pid, [p.record])] }
        (fun i hi => hne i (by simp [hi]))
        (by
          intro i hi
          simp only
          rw [dictGet_append, hfresh i (by simp [hi])]
          have hip : p.pid ≠ i := by
            intro hh
            exact (List.disjoint_left.mp hdisj (by simp [Item.ids, hh])) hi
          simp [dictGet, hip])
        hnodup'.2.1
      refine ⟨sm, ?_⟩
      rw [hrest]
      simp [Item.groupIds, Item.pathIds, Item.entries]
    | group gid kids =>
      have hne_g : gid ≠ "" := hne gid (by simp [Item.ids])
      have hg := processNode_group gid kids hne_g (some parent) st
      rw [hg]
      have hn := List.nodup_cons.mp (by simpa [Item.ids] using hnodup'.1 :
        (gid :: kids.map PathItem.pid).Nodup)
      have hgid_kids : gid ∉ kids.map PathItem.pid := hn.1
      have hkids_nodup : (kids.map PathItem.pid).Nodup := hn.2
      have hins : (if kids = [] then st.origElems
          else dictInsert st.origElems gid (kids.map PathItem.record))
          = st.origElems ++
            (if kids = [] then [] else [(gid, kids.map PathItem.record)]) := by
        cases hk : kids with
        | nil => simp
        | cons k ks =>
          simp only [if_neg (by simp : k :: ks ≠ [])]
          rw [dictInsert_fresh _ _ _ (hfresh gid (by simp [Item.ids]))]
      rw [hins]
      obtain ⟨sm1, hkids⟩ := processKids_state kids gid
        { structureMap := dictInsert st.structureMap gid ("g", some parent),
          groups := st.groups ++ [gid], paths := st.paths, shapes := st.shapes,
          origElems := st.origElems ++
            (if kids = [] then [] else [(gid, kids.map PathItem.record)]) }
        (fun q hq => hne q.pid (by
          simp only [Item.ids, List.mem_append, List.mem_cons]
          exact Or.inl (Or.inr (List.mem_map_of_mem _ hq))))
        (by
          intro q hq
          simp only
          rw [dictGet_append]
          rw [hfresh q.pid (by
            simp only [Item.ids, List.mem_append, List.mem_cons]
            exact Or.inl (Or.inr (List.mem_map_of_mem _ hq)))]
          have hqg : gid ≠ q.pid := by
            intro hh
            exact hgid_kids (hh ▸ List.mem_map_of_mem _ hq)
          cases kids with
          | nil => simp [dictGet]
          | cons k ks => simp [dictGet, hqg])
        hkids_nodup
      rw [hkids]
      obtain ⟨sm2, hrest⟩ := ih parent
        { structureMap := sm1,
          groups := st.groups ++ [gid], paths := st.paths ++ kids.map PathItem.pid,
          shapes := st.shapes,
          origElems := (st.origElems ++
              (if kids = [] then [] else [(gid, kids.map PathItem.record)])) ++
            kids.map fun p => (p.pid, [p.record]) }
        (fun i hi => hne i (by simp [hi]))
        (by
          intro i hi
          simp only
          rw [dictGet_append, dictGet_append, hfresh i (by simp [hi])]
          have hig : gid ≠ i := by
            intro hh
            exact (List.disjoint_left.mp hdisj (by simp [Item.ids, hh])) hi
          have hik : ∀ q ∈ kids, q.pid ≠ i := by
            intro q hq hh
            refine (List.disjoint_left.mp hdisj ?_) hi
            simp only [Item.ids, List.mem_cons]
            exact Or.inr (hh ▸ List.mem_map_of_mem _ hq)
          have h2 : dictGet (if kids = [] then []
              else [(gid, kids.map PathItem.record)]) i = none := by
            cases kids with
            | nil => simp [dictGet]
            | cons k ks => simp [dictGet, hig]
          rw [h2, dictGet_mapRecord_none kids i hik])
        hnodup'.2.1
      rw [hrest]
      refine ⟨sm2, ?_⟩
      simp [Item.groupIds, Item.pathIds, Item.entries]

/-- An item's entries have no key outside its ids. -/
theorem entries_lookup_none (x : Item) (i : String) (h : i ∉ x.ids) :
    dictGet x.entries i = none := by
  cases x with
  | single p =>
    have : p.pid ≠ i := fun hh => h (by simp [Item.ids, hh])
    simp [Item.entries, dictGet, this]
  | group gid kids =>
    have hg : gid ≠ i := fun hh => h (by simp [Item.ids, hh])
    have hk : ∀ q ∈ kids, q.pid ≠ i := by
      intro q hq hh
      exact h (by
        simp only [Item.ids, List.mem_cons]
        exact Or.inr (hh ▸ List.mem_map_of_mem _ hq))
    simp only [Item.entries]
    rw [dictGet_append]
    have h2 : dictGet (if kids = [] then []
        else [(gid, kids.map PathItem.record)]) i = none := by
      cases kids with
      | nil => simp [dictGet]
      | cons k ks => simp [dictGet, hg]
    rw [h2, dictGet_mapRecord_none kids i hk]

/-- The accumulated entries have no key outside the document ids. -/
theorem itemsEntries_lookup_none (items : List Item) (i : String)
    (h : i ∉ itemsIds items) :
    dictGet (items.flatMap Item.entries) i = none := by
  induction items with
  | nil => simp [dictGet]
  | cons x rest ih =>
    rw [List.flatMap_cons, dictGet_append]
    rw [entries_lookup_none x i (fun hh => h (by simp [itemsIds, hh]))]
    exact ih (fun hh => h (by simp [itemsIds]; right; simpa [itemsIds] using hh))

/-- Every path item resolves to its own stored record. -/
theorem itemsEntries_lookup_path (items : List Item)
    (hnodup : (itemsIds items).Nodup) :
    ∀ x ∈ items, ∀ p ∈ x.pathsOf,
      dictGet (items.flatMap Item.entries) p.pid = some [p.record] := by
  induction items with
  | nil => intro x hx; simp at hx
  | cons y rest ih =>
    have hids : itemsIds (y :: rest) = y.ids ++ itemsIds rest := by simp [itemsIds]
    rw [hids] at hnodup
    have hnodup' := List.nodup_append.mp hnodup
    have hdisj : y.ids.Disjoint (itemsIds rest) := hnodup'.2.2
    intro x hx p hp
    have hpid_mem : p.pid ∈ x.ids := by
      cases x with
      | single q =>
        simp only [Item.pathsOf, List.mem_singleton] at hp
        subst hp
        simp [Item.ids]
      | group gid kids =>
        simp only [Item.pathsOf] at hp
        simp only [Item.ids, List.mem_cons, List.mem_map]
        exact Or.inr ⟨p, hp, rfl⟩
    rw [List.flatMap_cons, dictGet_append]
    rcases List.mem_cons.mp hx with hxy | hxr
    · subst hxy
      have hsome : dictGet x.entries p.pid = some [p.record] := by
        cases x with
        | single q =>
          simp only [Item.pathsOf, List.mem_singleton] at hp
          subst hp
          simp [Item.entries, dictGet]
        | group gid kids =>
          simp only [Item.pathsOf] at hp
          have hn : (gid :: kids.map PathItem.pid).Nodup := by
            simpa [Item.ids] using hnodup'.1
          have hgk := (List.nodup_cons.mp hn).1
          have hg : gid ≠ p.pid := fun hh => hgk (hh ▸ List.mem_map_of_mem _ hp)
          simp only [Item.entries]
          rw [dictGet_append]
          have h2 : dictGet (if kids = [] then []
              else [(gid, kids.map PathItem.record)]) p.pid = none := by
            cases kids with
            | nil => simp [dictGet]
            | cons k ks => simp [dictGet, hg]
          rw [h2, dictGet_mapRecord_mem kids p hp (List.nodup_cons.mp hn).2]
      rw [hsome]
    · have hnone : dictGet y.entries p.pid = none := by
        apply entries_lookup_none
        intro hmem
        refine (List.disjoint_left.mp hdisj hmem) ?_
        simp only [itemsIds, List.mem_flatMap]
        exact ⟨x, hxr, hpid_mem⟩
      rw [hnone]
      exact ih hnodup'.2.1 x hxr p hp

/-- Every group id resolves to its stored child records (none when
childless). -/
theorem itemsEntries_lookup_group (items : List Item)
    (hnodup : (itemsIds items).Nodup) :
    ∀ gid kids, Item.group gid kids ∈ items →
      dictGet (items.flatMap Item.entries) gid
        = if kids = [] then none else some (kids.map PathItem.record) := by
  induction items with
  | nil => intro gid kids h; simp at h
  | cons y rest ih =>
    have hids : itemsIds (y :: rest) = y.ids ++ itemsIds rest := by simp [itemsIds]
    rw [hids] at hnodup
    have hnodup' := List.nodup_append.mp hnodup
    have hdisj : y.ids.Disjoint (itemsIds rest) := hnodup'.2.2
    intro gid kids hmem
    rw [List.flatMap_cons, dictGet_append]
    rcases List.mem_cons.mp hmem with hxy | hxr
    · subst hxy
      have hn : (gid :: kids.map PathItem.pid).Nodup := by
        simpa [Item.ids] using hnodup'.1
      have hgk := (List.nodup_cons.mp hn).1
      cases hk : kids with
      | nil =>
        have hent : dictGet (Item.group gid ([] : List PathItem)).entries gid
            = none := by simp [Item.entries, dictGet]
        rw [hk] at hdisj
        rw [hent]
        simp only [if_pos rfl]
        apply itemsEntries_lookup_none rest gid
        intro hmem2
        exact (List.disjoint_left.mp hdisj (by simp [Item.ids])) hmem2
      | cons k ks =>
        have hent : dictGet (Item.group gid (k :: ks)).entries gid
            = some ((k :: ks).map PathItem.record) := by
          simp [Item.entries, dictGet_append, dictGet]
        rw [hent]
        simp
    · have hnone : dictGet y.entries gid = none := by
        apply entries_lookup_none
        intro hmem2
        refine (List.disjoint_left.mp hdisj hmem2) ?_
        simp only [itemsIds, List.mem_flatMap]
        exact ⟨Item.group gid kids, hxr, by simp [Item.ids]⟩
      rw [hnone]
      exact ih hnodup'.2.1 gid kids hxr

/-- The main-layer loop over resolved path ids emits one shape per path. -/
theorem filterMap_pathIds (D : List (String × List ElementData))
    (l : List PathItem)
    (h : ∀ p ∈ l, dictGet D p.pid = some [p.record]) :
    ((l.map PathItem.pid).filterMap fun pid =>
      match dictGet D pid with
      | some (e :: _) => addPathToLayer e
      | _ => none) = l.map PathItem.shape := by
  induction l with
  | nil => simp
  | cons p rest ih =>
    have hfp : (match dictGet D p.pid with
        | some (e :: _) => addPathToLayer e
        | _ => none) = some p.shape := by
      rw [h p (by simp)]
      rfl
    rw [List.map_cons, List.filterMap_cons, hfp, List.map_cons,
        ih (fun q hq => h q (by simp [hq]))]

/-- The accumulated path ids are the ids of the flattened path items. -/
theorem pathIds_flat (items : List Item) :
    items.flatMap Item.pathIds = (items.flatMap Item.pathsOf).map PathItem.pid := by
  induction items with
  | nil => simp
  | cons x rest ih =>
    rw [List.flatMap_cons, List.flatMap_cons, List.map_append, ih]
    congr 1
    cases x <;> simp [Item.pathIds, Item.pathsOf]

/-- The accumulated group ids are the first components of groupPairs. -/
theorem groupIds_flat (items : List Item) :
    items.flatMap Item.groupIds = (groupPairs items).map Prod.fst := by
  induction items with
  | nil => simp [groupPairs]
  | cons x rest ih =>
    cases x with
    | single p => simpa [Item.groupIds, groupPairs, List.filterMap_cons] using ih
    | group gid kids =>
      simp only [List.flatMap_cons, Item.groupIds, groupPairs, List.filterMap_cons]
      simpa [groupPairs] using ih

/-- The kid lists are the second components of groupPairs. -/
theorem groupKidLists_pairs (items : List Item) :
    groupKidLists items = (groupPairs items).map Prod.snd := by
  induction items with
  | nil => simp [groupKidLists, groupPairs]
  | cons x rest ih =>
    cases x with
    | single p =>
      simpa [groupKidLists, groupPairs, List.filterMap_cons] using ih
    | group gid kids =>
      simp only [groupKidLists, groupPairs, List.filterMap_cons] at ih ⊢
      simpa using ih

/-- The group-layer loop over a group's records emits one shape per kid. -/
theorem kidShapes (kids : List PathItem) :
    ((kids.map PathItem.record).filterMap fun e =>
      match e with
      | .path .. => addPathToLayer e
      | .rect .. => some (addShapeToLayer e)
      | .circle .. => some (addShapeToLayer e)
      | .poly .. => some (addShapeToLayer e)) = kids.map PathItem.shape := by
  induction kids with
  | nil => simp
  | cons k rest ih =>
    rw [List.map_cons, List.map_cons, List.filterMap_cons]
    show k.shape :: ((rest.map PathItem.record).filterMap _)
        = k.shape :: rest.map PathItem.shape
    rw [ih]

/-- The group-layer enumeration: each group id resolves through the dict
and yields the ordinal-named layer, childless groups consuming their
ordinal silently. -/
theorem groupLayers_enum (D : List (String × List ElementData)) :
    ∀ (gps : List (String × List PathItem)) (n : Nat),
    (∀ gk ∈ gps, dictGet D gk.1
      = if gk.2 = [] then none else some (gk.2.map PathItem.record)) →
    (((gps.map Prod.fst).enumFrom n).filterMap fun (i, gid) =>
      match dictGet D gid with
      | some [] => none
      | none => none
      | some es =>
        some { name := "Group " ++ Nat.repr (i + 1),
               shapes := es.filterMap fun e =>
                 match e with
                 | .path .. => addPathToLayer e
                 | .rect .. => some (addShapeToLayer e)
                 | .circle .. => some (addShapeToLayer e)
                 | .poly .. => some (addShapeToLayer e) } : List Layer)
    = ((gps.map Prod.snd).enumFrom n).filterMap fun (i, kids) =>
        if kids = [] then none
        else some { name := "Group " ++ Nat.repr (i + 1),
                    shapes := kids.map PathItem.shape } := by
  intro gps
  induction gps with
  | nil => intro n _; rfl
  | cons gk gps ih =>
    intro n h
    obtain ⟨gid, kids⟩ := gk
    have hg := h (gid, kids) (by simp)
    simp only at hg
    rw [List.map_cons, List.map_cons]
    rw [show List.enumFrom n (gid :: gps.map Prod.fst)
        = (n, gid) :: List.enumFrom (n + 1) (gps.map Prod.fst) from rfl]
    rw [show List.enumFrom n (kids :: gps.map Prod.snd)
        = (n, kids) :: List.enumFrom (n + 1) (gps.map Prod.snd) from rfl]
    simp only [List.filterMap_cons]
    cases hk : kids with
    | nil =>
      rw [hk] at hg
      simp only [if_pos rfl] at hg
      rw [hg]
      simp only [if_pos rfl]
      exact ih (n + 1) (fun gk hgk => h gk (by simp [hgk]))
    | cons k ks =>
      rw [hk] at hg
      simp only [if_neg (by simp : k :: ks ≠ [])] at hg
      rw [hg]
      simp only [if_neg (by simp : k :: ks ≠ []), List.map_cons]
      rw [ih (n + 1) (fun gk hgk => h gk (by simp [hgk]))]
      have hshapes := kidShapes (k :: ks)
      rw [List.map_cons] at hshapes
      rw [hshapes]
      simp only [List.map_cons]

/-- Membership in groupPairs comes from a group item. -/
theorem mem_groupPairs {items : List Item} {gk : String × List PathItem}
    (h : gk ∈ groupPairs items) : Item.group gk.1 gk.2 ∈ items := by
  obtain ⟨x, hx, hfx⟩ := List.mem_filterMap.mp h
  cases x with
  | single p => simp at hfx
  | group gid kids =>
    simp only [Option.some.injEq] at hfx
    subst hfx
    exact hx

/-- C3 (amended): for a document of top-level paths and one-level groups
(with distinct, non-empty ids) and a background color that parses, the
layer list is: Background first, then ONE main layer holding a shape
group for EVERY path in the document — top-level and nested alike, in
document order — then one layer per group named "Group i" by 1-based
ordinal holding that group's children (childless groups produce no layer
but keep their ordinal).  Nested paths therefore appear both in the main
layer and in their group's layer. -/
theorem layer_structure_flat_classification (items : List Item) (bg : String)
    (w h : Rat) (shapes : List ShapeGroup)
    (hnodup : (itemsIds items).Nodup)
    (hne : ∀ i ∈ itemsIds items, i ≠ "")
    (hbg : bgShapes bg w h = .ok shapes) :
    buildAnimation bg w h (analyzeStructure (itemsDoc items) initPState)
      = .ok ({ name := "Background", shapes := shapes }
          :: { name := "Main Elements", shapes := allPathShapes items }
          :: expectedGroupLayers items) := by
  have hroot : analyzeStructure (itemsDoc items) initPState
      = processNodes (items.map Item.node) "element_0"
          { structureMap := [("element_0", ("svg", none))],
            groups := [], paths := [], shapes := [], origElems := [] } := rfl
  obtain ⟨sm, hstate⟩ := processItems_state items "element_0"
    { structureMap := [("element_0", ("svg", none))],
      groups := [], paths := [], shapes := [], origElems := [] }
    hne (fun i _ => rfl) hnodup
  simp only [List.nil_append] at hstate
  unfold buildAnimation
  rw [hbg, hroot, hstate]
  have hlookpath : ∀ p ∈ items.flatMap Item.pathsOf,
      dictGet (items.flatMap Item.entries) p.pid = some [p.record] := by
    intro p hp
    obtain ⟨x, hx, hpx⟩ := List.mem_flatMap.mp hp
    exact itemsEntries_lookup_path items hnodup x hx p hpx
  have hmain : mainLayer
      { structureMap := sm, groups := items.flatMap Item.groupIds,
        paths := items.flatMap Item.pathIds, shapes := [],
        origElems := items.flatMap Item.entries }
      = { name := "Main Elements", shapes := allPathShapes items } := by
    unfold mainLayer
    simp only [getElementById]
    congr 1
    simp only [List.filterMap_nil, List.append_nil]
    rw [pathIds_flat]
    exact filterMap_pathIds (items.flatMap Item.entries)
      (items.flatMap Item.pathsOf) hlookpath
  have hgroups : groupLayers
      { structureMap := sm, groups := items.flatMap Item.groupIds,
        paths := items.flatMap Item.pathIds, shapes := [],
        origElems := items.flatMap Item.entries }
      = expectedGroupLayers items := by
    unfold groupLayers expectedGroupLayers
    simp only [getElementById]
    rw [groupIds_flat, groupKidLists_pairs]
    exact groupLayers_enum (items.flatMap Item.entries) (groupPairs items) 0
      (fun gk hgk => itemsEntries_lookup_group items hnodup gk.1 gk.2
        (mem_groupPairs hgk))
  rw [hmain, hgroups]

/-- C3 amended witness: one bare path and one group of one path. -/
theorem layer_structure_flat_classification_witness :
    buildAnimation "#ffffff" 800 600
        (analyzeStructure (itemsDoc [.single ⟨"p0", "M0,0", "red"⟩,
          .group "g1" [⟨"p1", "M0,0 L1,1", "blue"⟩]]) initPState)
      = .ok ({ name := "Background",
               shapes := [.bgRect ((800 : Rat) / 2, (600 : Rat) / 2) (800, 600)
                 ((255 : Rat) / 255, (255 : Rat) / 255, (255 : Rat) / 255, 1)] }
          :: { name := "Main Elements",
               shapes := allPathShapes [.single ⟨"p0", "M0,0", "red"⟩,
                 .group "g1" [⟨"p1", "M0,0 L1,1", "blue"⟩]] }
          :: expectedGroupLayers [.single ⟨"p0", "M0,0", "red"⟩,
               .group "g1" [⟨"p1", "M0,0 L1,1", "blue"⟩]]) :=
  layer_structure_flat_classification
    [.single ⟨"p0", "M0,0", "red"⟩, .group "g1" [⟨"p1", "M0,0 L1,1", "blue"⟩]]
    "#ffffff" 800 600 _ (by decide) (by decide) rfl

end SvgAnimator
